import Mathlib

/-!
Shallow embedding of the schedule-bot source (src/bot.py) and proofs about
its time-driven notification engine.

Modelling conventions:
* Wall-clock time is a natural number of seconds since an epoch placed at a
  Monday 00:00 in the fixed Tashkent zone, so the weekday index of an instant
  is (n / 86400) % 7 with 0 = Monday, matching the weekday numbering used by
  the source.
* The JSON stores are association lists; the chat transport is a delivery
  oracle (chat id to Bool) injected as a parameter, mirroring the fact that
  the safe send helper of the source catches every transport error.
-/

namespace Bot

/-- Python regex class backslash-s on the characters that can occur in one
line of schedule text (no newline splitting issues arise: lines are produced
by splitting on newline first). -/
def isPySpace (c : Char) : Bool :=
  c == ' ' || c == '\t' || c == '\n' || c == '\r' || c == '\x0b' || c == '\x0c'

/-- One attempt of the pattern digit(1-2) colon digit(2) anchored at the head
of the character list, with the greedy two-digit alternative tried first,
exactly as the Python regex engine does.  Returns the matched characters and
the remainder after the match. -/
def matchTimeAt : List Char → Option (List Char × List Char)
  | c1 :: c2 :: c3 :: c4 :: c5 :: rest =>
    if c1.isDigit && c2.isDigit && c3 == ':' && c4.isDigit && c5.isDigit then
      some ([c1, c2, c3, c4, c5], rest)
    else if c1.isDigit && c2 == ':' && c3.isDigit && c4.isDigit then
      some ([c1, c2, c3, c4], c5 :: rest)
    else none
  | [c1, c2, c3, c4] =>
    if c1.isDigit && c2 == ':' && c3.isDigit && c4.isDigit then
      some ([c1, c2, c3, c4], [])
    else none
  | _ => none

/-- Scanner of re.findall for the time pattern: leftmost matches, scanning
resumes right after each match (non-overlapping).  Fuel is the length of the
text, enough because every step consumes at least one character. -/
def findallAux : Nat → List Char → List (List Char)
  | 0, _ => []
  | _ + 1, [] => []
  | n + 1, c :: cs =>
    match matchTimeAt (c :: cs) with
    | some (m, rest) => m :: findallAux n rest
    | none => findallAux n cs

/-- All non-overlapping leftmost matches of the time pattern in a string,
as strings: the embedding of re.findall applied to the time regex. -/
def timeMatches (s : String) : List String :=
  (findallAux s.data.length s.data).map String.mk

/-- Python dict.fromkeys based deduplication: keep the first occurrence of
every element, preserving first-occurrence order. -/
def pyDedupAux (acc : List String) : List String → List String
  | [] => acc
  | x :: xs => if x ∈ acc then pyDedupAux acc xs else pyDedupAux (acc ++ [x]) xs

def pyDedup (l : List String) : List String := pyDedupAux [] l

/-- Lexicographic comparison of character lists by code point: exactly the
order Python uses when sorting strings. -/
def charListLe : List Char → List Char → Bool
  | [], _ => true
  | _ :: _, [] => false
  | a :: as, b :: bs => if a < b then true else if b < a then false else charListLe as bs

def strLe (a b : String) : Bool := charListLe a.data b.data

/-- The ascending string order used by the sort, as a proposition. -/
def strLeP (a b : String) : Prop := strLe a b = true

instance : DecidableRel strLeP := fun a b => Bool.decEq (strLe a b) true

/-- Embedding of parse_times_from_text: find all time tokens, deduplicate
keeping first occurrences, then sort ascending (string order, as Python
sorted does on strings). -/
def parse_times_from_text (s : String) : List String :=
  List.insertionSort strLeP (pyDedup (timeMatches s))

/-- The settings document, with the fields read by the notification engine
(same field names as the JSON keys in the source). -/
structure Settings where
  current_week : String
  auto_switch_on_monday : Bool
  reminder_minutes_before : Nat
  admins : List Int
  send_6am : Bool
  send_18pm : Bool
deriving Repr, DecidableEq

/-- The schedules document: week variant name to (weekday name to text),
as an association list mirroring the nested JSON dicts. -/
abbrev Schedules := List (String × List (String × String))

/-- Python dict get with no default: first binding for the key, if any. -/
def dictGet {α : Type} (l : List (String × α)) (k : String) : Option α :=
  (l.find? (fun p => p.1 == k)).map Prod.snd

/-- schedules.get(week, dict()).get(day, str()): the raw text of one day. -/
def schedText (sched : Schedules) (week day : String) : String :=
  (dictGet ((dictGet sched week).getD []) day).getD ""

/-- Weekday name of a day index, with the epoch placed on a Monday so that
index mod 7 = 0 means Monday, as Python date.weekday() numbers days. -/
def dayNameOfIndex (i : Nat) : String :=
  match i % 7 with
  | 0 => "Monday"
  | 1 => "Tuesday"
  | 2 => "Wednesday"
  | 3 => "Thursday"
  | 4 => "Friday"
  | 5 => "Saturday"
  | _ => "Sunday"

/-- Weekday name of an instant given in seconds since the Monday epoch:
the embedding of now.strftime applied to the weekday directive. -/
def weekdayName (now : Nat) : String := dayNameOfIndex (now / 86400)

/-- The EN_TO_UZ_BTN dict lookup with the day name itself as default. -/
def en_to_uz (d : String) : String :=
  if d == "Monday" then "📘 Dushanba"
  else if d == "Tuesday" then "📗 Seshanba"
  else if d == "Wednesday" then "📙 Chorshanba"
  else if d == "Thursday" then "📒 Payshanba"
  else if d == "Friday" then "📔 Juma"
  else if d == "Saturday" then "📕 Shanba"
  else if d == "Sunday" then "🌞 Yakshanba"
  else d

/-- Embedding of seconds_until_target: seconds until the next occurrence of
the daily target hour:minute strictly after now.  The source builds the
target by replacing the hour and minute on the current day and rolls it one
day forward when now is at or past it. -/
def seconds_until_target (now : Nat) (hour minute : Nat) : Int :=
  let target := (now / 86400) * 86400 + hour * 3600 + minute * 60
  let target := if now ≥ target then target + 86400 else target
  (target : Int) - (now : Int)

/-- str.split on a single separator character (no maxsplit). -/
def splitCharAux (sep : Char) (cur : List Char) : List Char → List (List Char)
  | [] => [cur.reverse]
  | c :: cs =>
    if c == sep then cur.reverse :: splitCharAux sep [] cs
    else splitCharAux sep (c :: cur) cs

def splitChar (sep : Char) (cs : List Char) : List (List Char) :=
  splitCharAux sep [] cs

/-- int() on a field produced by splitting a regex time token: the fields
are plain decimal digit runs, on which int() is just base-ten evaluation
(empty or non-digit input raises, modelled as none). -/
def digitsToNat (cs : List Char) : Option Nat :=
  if cs ≠ [] ∧ cs.all Char.isDigit then
    some (cs.foldl (fun n c => n * 10 + (c.toNat - 48)) 0)
  else none

/-- map(int, t.split(colon)): the hour and minute of a time token. -/
def timeToHM (t : String) : Option (Nat × Nat) :=
  match splitChar ':' t.data with
  | [h, m] =>
    match digitsToNat h, digitsToNat m with
    | some hh, some mm => some (hh, mm)
    | _, _ => none
  | _ => none

/-- toggle of the current week variant, tepa (Upper) and pastgi (Lower). -/
def toggleWeek (w : String) : String := if w == "tepa" then "pastgi" else "tepa"

/-- str.splitlines for texts whose only line separator is the newline
character: split on newline, and a trailing newline produces no extra empty
final line; the empty string has no lines. -/
def splitlines (s : String) : List String :=
  if s.data = [] then []
  else
    let parts := (splitChar '\n' s.data).map String.mk
    if s.data.getLast? = some '\n' then parts.dropLast else parts

/-- The tail of the lesson-line regex after the time group: greedy
whitespace, a dash, greedy whitespace, then a nonempty remainder.  When all
that follows the dash is whitespace, the greedy whitespace group backtracks
one character so the final captured group is that last whitespace character,
as the regex engine does. -/
def subjectAfterDash (cs : List Char) : Option (List Char) :=
  let sp := cs.takeWhile isPySpace
  let rest := cs.dropWhile isPySpace
  match rest with
  | [] =>
    match sp.reverse with
    | [] => none
    | c :: _ => some [c]
  | _ => some rest

/-- re.match of the lesson-line pattern (leading whitespace, a 1-2 digit
hour, colon, 2 digit minute, whitespace, dash, whitespace, nonempty rest),
returning the captured time and subject groups. -/
def matchLessonLine (line : String) : Option (String × String) :=
  let cs := line.data.dropWhile isPySpace
  match matchTimeAt cs with
  | none => none
  | some (t, rest) =>
    match rest.dropWhile isPySpace with
    | '-' :: rest2 =>
      match subjectAfterDash rest2 with
      | none => none
      | some subj => some (String.mk t, String.mk subj)
    | _ => none

/-- Embedding of pretty_schedule_text.  The Sunday branch returns the fixed
rest message before any data is consulted; a missing or empty day entry
(both falsy in the source) yields the not-found message; otherwise lesson
lines are reformatted and other lines become bullets. -/
def pretty_schedule_text (sched : Schedules) (day_en week_type : String) : String :=
  if day_en == "Sunday" then "🌞 *Yakshanba* — Bugun dars yo'q!!!"
  else
    let jadval := schedText sched week_type day_en
    if jadval == "" then
      "❌ *" ++ en_to_uz day_en ++ "* uchun jadval topilmadi."
    else
      let header := "📅 *" ++ en_to_uz day_en ++ "* — *" ++
        (if week_type == "tepa" then "Tepa" else "Pastgi") ++ " hafta*\n\n"
      let lines := (splitlines jadval).map (fun line =>
        match matchLessonLine line with
        | some (t, subject) => "⏰ `" ++ t ++ "` — *" ++ subject ++ "*"
        | none => "• " ++ line)
      header ++ String.intercalate "\n" lines

/-- Python substring membership test (the in operator) on character lists:
the needle occurs when it is a prefix of some suffix of the haystack. -/
def containsSub : List Char → List Char → Bool
  | [], needle => needle.isPrefixOf []
  | c :: t, needle => needle.isPrefixOf (c :: t) || containsSub t needle

/-- str.split with separator dash and maxsplit one: the part before the
first dash and everything after it, or the whole string when no dash. -/
def splitDashOnce (line : String) : List String :=
  match splitChar '-' line.data with
  | [] => [line]
  | [x] => [String.mk x]
  | x :: rest => [String.mk x, String.intercalate "-" (rest.map String.mk)]

/-- str.strip with no argument: drop leading and trailing whitespace. -/
def pyStrip (s : String) : String :=
  String.mk (((s.data.dropWhile isPySpace).reverse.dropWhile isPySpace).reverse)

/-- The first line of the schedule text that contains the time string as a
substring, if any: the loop of reminder_send_for_time stops at that line. -/
def findSubjectLine (text t : String) : Option String :=
  (splitlines text).find? (fun line => containsSub line.data t.data)

/-- The subject reminder_send_for_time extracts: take the first line
containing the time string, split it at its first dash, and strip the part
after the dash; none when no line matches or the matching line has no dash. -/
def subjectFor (text t : String) : Option String :=
  match findSubjectLine text t with
  | none => none
  | some line =>
    match splitDashOnce line with
    | _ :: after :: _ => some (pyStrip after)
    | _ => none

/-- The body of the per-time loop of schedule_reminders_for_today: parse the
time token, build the lesson instant on the current day (the datetime
constructor raises on an hour above 23 or a minute above 59, caught by the
per-lesson handler, modelled as none), subtract the lead, and arm a timer at
that instant only when the delay from now is strictly positive. -/
def armOne (dayStart : Nat) (minutes_before : Nat) (now : Nat) (t : String) :
    Option (String × Int) :=
  match timeToHM t with
  | none => none
  | some (hh, mm) =>
    if hh ≤ 23 ∧ mm ≤ 59 then
      let lesson : Int := (dayStart : Int) + hh * 3600 + mm * 60
      let remind : Int := lesson - (minutes_before : Int) * 60
      let delay : Int := remind - (now : Int)
      if delay ≤ 0 then none else some (t, remind)
    else none

/-- Embedding of schedule_reminders_for_today: nothing on Sunday, otherwise
extract the times of the current variant text for today and arm one timer
per time whose reminder instant is still strictly in the future.  The result
lists the armed timers as (lesson time string, fire instant). -/
def schedule_reminders_for_today (sched : Schedules) (st : Settings) (now : Nat) :
    List (String × Int) :=
  let today_en := weekdayName now
  if today_en == "Sunday" then []
  else
    let jadval_text := schedText sched st.current_week today_en
    let times := parse_times_from_text jadval_text
    let dayStart := (now / 86400) * 86400
    times.filterMap (armOne dayStart st.reminder_minutes_before now)

/-- The reminder message for a time, as built at fire time from the schedule
text read at fire time: the specific form when a nonempty subject is found,
the generic fallback otherwise.  The source guards the specific form with
Python truthiness on the subject, so a matching line whose stripped text
after the dash is empty also falls to the generic message. -/
def reminderMsg (text t : String) : String :=
  match subjectFor text t with
  | some subject =>
    if subject == "" then "🔔 *Eslatma!* `" ++ t ++ "` da dars boshlanadi. Tayyorlaning!"
    else "🔔 *Eslatma!* `" ++ t ++ "` da *" ++ subject ++ "* boshlanadi. Tayyorlaning!"
  | none => "🔔 *Eslatma!* `" ++ t ++ "` da dars boshlanadi. Tayyorlaning!"

/-- Embedding of reminder_send_for_time: on firing, re-read the current
variant text for today from the store passed at fire time, build the message
and send it to every individual user (the source iterates the users list
only; groups are never consulted).  The result is the outbound send list. -/
def reminder_send_for_time (sched : Schedules) (st : Settings) (users : List Int)
    (now : Nat) (time_str : String) : List (Int × String) :=
  let jadval_text := schedText sched st.current_week (weekdayName now)
  let msg := reminderMsg jadval_text time_str
  users.map (fun uid => (uid, msg))

/-- Outcome of one send_message_safe call: the helper catches every
transport error, logs it and returns normally, so the call itself never
raises into its caller. -/
inductive SendOutcome where
  | delivered (chat : Int)
  | logged (chat : Int)
deriving Repr, DecidableEq

/-- Embedding of send_message_safe with the transport modelled as a
delivery oracle: deliver when the oracle accepts the chat, otherwise log
the failure; in both cases return normally. -/
def send_message_safe (ok : Int → Bool) (chat_id : Int) : SendOutcome :=
  if ok chat_id then SendOutcome.delivered chat_id else SendOutcome.logged chat_id

/-- One per-recipient iteration of a broadcast loop: call the safe sender,
then increment the sent counter (the increment is reached for every
recipient because the safe sender returns normally; the enclosing
try-except of the source never fires). -/
def broadcastStep (ok : Int → Bool) (acc : List SendOutcome × Nat) (uid : Int) :
    List SendOutcome × Nat :=
  (acc.1 ++ [send_message_safe ok uid], acc.2 + 1)

/-- Result of the morning broadcast: the delivery outcomes and counters for
both audiences, the numbers placed in the admin report, and the registries
after the run (the source never mutates them here). -/
structure MorningResult where
  text : String
  outcomes_u : List SendOutcome
  sent_u : Nat
  outcomes_g : List SendOutcome
  sent_g : Nat
  report_users : Nat
  report_groups : Nat
  report_sent_u : Nat
  report_sent_g : Nat
  users_after : List Int
  groups_after : List Int
deriving Repr, DecidableEq

/-- Embedding of send_daily_morning: render today with the current variant,
loop over users then groups with the safe sender, and report len(users),
len(groups) and the two counters to the admin. -/
def send_daily_morning (sched : Schedules) (st : Settings) (users groups : List Int)
    (ok : Int → Bool) (now : Nat) : MorningResult :=
  let today_en := weekdayName now
  let text :=
    if today_en == "Sunday" then "🌞 *Yakshanba* — Bugun dars yo'q! 😎\nDam oling!"
    else pretty_schedule_text sched today_en st.current_week
  let ru := users.foldl (broadcastStep ok) ([], 0)
  let rg := groups.foldl (broadcastStep ok) ([], 0)
  { text := text
    outcomes_u := ru.1, sent_u := ru.2
    outcomes_g := rg.1, sent_g := rg.2
    report_users := users.length, report_groups := groups.length
    report_sent_u := ru.2, report_sent_g := rg.2
    users_after := users, groups_after := groups }

/-- Result of the evening broadcast: the settings as left behind (the
source reads them and never writes), the variant used for rendering, the
rendered text and the send counters. -/
structure EveningResult where
  settings : Settings
  weekUsed : String
  text : String
  sent_u : Nat
  sent_g : Nat
deriving Repr, DecidableEq

/-- Embedding of send_daily_evening: compute tomorrow, flip the variant for
rendering only when tomorrow is Monday and auto switch is on, render
tomorrow (or the rest message) and broadcast; the settings document is not
written. -/
def send_daily_evening (sched : Schedules) (st : Settings) (users groups : List Int)
    (ok : Int → Bool) (now : Nat) : EveningResult :=
  let tomorrowIdx := now / 86400 + 1
  let tomorrow_en := dayNameOfIndex tomorrowIdx
  let week_type :=
    if st.auto_switch_on_monday && tomorrowIdx % 7 == 0 then toggleWeek st.current_week
    else st.current_week
  let text :=
    if tomorrow_en == "Sunday" then "🌞 *Yakshanba* — Ertaga dars yo'q! 😎\nDam oling!"
    else pretty_schedule_text sched tomorrow_en week_type
  let ru := users.foldl (broadcastStep ok) ([], 0)
  let rg := groups.foldl (broadcastStep ok) ([], 0)
  { settings := st, weekUsed := week_type, text := text, sent_u := ru.2, sent_g := rg.2 }

/-- Observable events of one iteration of the daily scheduler loop.  A flip
event records the newly persisted variant; a morning event records the
variant whose text is broadcast (the morning sender reads the settings after
any flip); an evening event records the variant used for the preview. -/
inductive Event where
  | flip (newWeek : String) (atTime : Nat)
  | morning (week : String) (atTime : Nat)
  | evening (weekUsed : String) (atTime : Nat)
deriving Repr, DecidableEq

/-- One iteration of daily_scheduler_loop: compute the two delays, sleep
until the earlier target, and handle it.  On a 06:00 wake with the morning
broadcast enabled, first flip and persist the variant when the wake day is
Monday and auto switch is on, then broadcast the morning schedule (reading
the possibly flipped settings) and arm the reminders.  On an 18:00 wake with
the evening broadcast enabled, send the evening preview without touching the
settings.  Returns the persisted settings, the wake instant (the time at
which the next iteration starts) and the events of this iteration. -/
def loopIter (st : Settings) (now : Nat) : Settings × Nat × List Event :=
  let sec6 := seconds_until_target now 6 0
  let sec18 := seconds_until_target now 18 0
  if sec6 ≤ sec18 then
    let wake := now + sec6.toNat
    if st.send_6am then
      if st.auto_switch_on_monday && (wake / 86400) % 7 == 0 then
        let st2 := { st with current_week := toggleWeek st.current_week }
        (st2, wake, [Event.flip st2.current_week wake, Event.morning st2.current_week wake])
      else
        (st, wake, [Event.morning st.current_week wake])
    else (st, wake, [])
  else
    let wake := now + sec18.toNat
    if st.send_18pm then
      let tomorrowIdx := wake / 86400 + 1
      let weekUsed :=
        if st.auto_switch_on_monday && tomorrowIdx % 7 == 0 then toggleWeek st.current_week
        else st.current_week
      (st, wake, [Event.evening weekUsed wake])
    else (st, wake, [])

/-- n iterations of the daily scheduler loop, collecting all events. -/
def runLoop (st : Settings) (now : Nat) : Nat → Settings × Nat × List Event
  | 0 => (st, now, [])
  | n + 1 =>
    let r := loopIter st now
    let r2 := runLoop r.1 r.2.1 n
    (r2.1, r2.2.1, r.2.2 ++ r2.2.2)

/-- The number of flip events whose wake instant falls on a given day. -/
def flipCountOnDay (evs : List Event) (d : Nat) : Nat :=
  (evs.filter (fun e =>
    match e with
    | Event.flip _ t => t / 86400 == d
    | _ => false)).length

/-- Result of one /start event: the registries afterwards and the outbound
sends, each as (chat id, message text). -/
structure StartResult where
  users : List Int
  groups : List Int
  sends : List (Int × String)
deriving Repr, DecidableEq

/-- Embedding of handle_start.  In a private chat: append the chat id to the
users registry unless already present, then send the welcome message and the
rendered schedule of today.  In a group chat: register the group and send
the group welcome plus the schedule of today.  Other chat types fall through
with no effect. -/
def handle_start (chatType : String) (chat_id : Int) (users groups : List Int)
    (sched : Schedules) (st : Settings) (now : Nat) : StartResult :=
  if chatType == "private" then
    let users2 := if chat_id ∈ users then users else users ++ [chat_id]
    let today_en := weekdayName now
    let text := pretty_schedule_text sched today_en st.current_week
    { users := users2, groups := groups
      sends := [(chat_id,
        "👋 *Assalomu alaykum!* Men — Raspisanie boti 🤖\nQuyidagi tugmalardan foydalaning:"),
        (chat_id, text)] }
  else if chatType == "group" || chatType == "supergroup" then
    let groups2 := if chat_id ∈ groups then groups else groups ++ [chat_id]
    let today_en := weekdayName now
    let text := pretty_schedule_text sched today_en st.current_week
    { users := users, groups := groups2
      sends := [(chat_id,
        "👋 Men guruhda ishlashga tayyorman! Adminlar /start orqali admin panelini ochishlari mumkin."),
        (chat_id, text)] }
  else { users := users, groups := groups, sends := [] }

/-- The time-token shape named by the specification wording: an HH:MM
substring, where the hour has one or two digits as in the pattern the code
and the spec examples use.  Stated from the words of the spec, for
comparison against the extraction the source performs. -/
def specTimeToken (s : String) : Bool :=
  match s.data with
  | [a, b, c, d, e] => a.isDigit && b.isDigit && c == ':' && d.isDigit && e.isDigit
  | [a, b, c, d] => a.isDigit && b == ':' && c.isDigit && d.isDigit
  | _ => false

theorem charListLe_total : ∀ as bs : List Char,
    charListLe as bs = true ∨ charListLe bs as = true
  | [], _ => Or.inl rfl
  | _ :: _, [] => Or.inr rfl
  | a :: as, b :: bs => by
    simp only [charListLe]
    rcases lt_trichotomy a b with h | h | h
    · left; rw [if_pos h]
    · subst h
      simp only [lt_irrefl, if_false]
      exact charListLe_total as bs
    · right; rw [if_pos h]

theorem charListLe_trans : ∀ as bs cs : List Char,
    charListLe as bs = true → charListLe bs cs = true → charListLe as cs = true
  | [], _, _, _, _ => rfl
  | _ :: _, [], _, h1, _ => by simp [charListLe] at h1
  | _ :: _, _ :: _, [], _, h2 => by simp [charListLe] at h2
  | a :: as, b :: bs, c :: cs, h1, h2 => by
    simp only [charListLe] at h1 h2 ⊢
    rcases lt_trichotomy a b with hab | hab | hab
    · rcases lt_trichotomy b c with hbc | hbc | hbc
      · rw [if_pos (lt_trans hab hbc)]
      · subst hbc; rw [if_pos hab]
      · rw [if_neg (lt_asymm hbc), if_pos hbc] at h2; cases h2
    · subst hab
      rw [if_neg (lt_irrefl a), if_neg (lt_irrefl a)] at h1
      rcases lt_trichotomy a c with hac | hac | hac
      · rw [if_pos hac]
      · subst hac
        rw [if_neg (lt_irrefl a), if_neg (lt_irrefl a)] at h2 ⊢
        exact charListLe_trans as bs cs h1 h2
      · rw [if_neg (lt_asymm hac), if_pos hac] at h2; cases h2
    · rw [if_neg (lt_asymm hab), if_pos hab] at h1; cases h1

instance : IsTotal String strLeP :=
  ⟨fun a b => charListLe_total a.data b.data⟩

instance : IsTrans String strLeP :=
  ⟨fun a b c => charListLe_trans a.data b.data c.data⟩

theorem pyDedupAux_mem : ∀ (l acc : List String) (y : String),
    y ∈ pyDedupAux acc l ↔ y ∈ acc ∨ y ∈ l
  | [], acc, y => by simp [pyDedupAux]
  | x :: xs, acc, y => by
    simp only [pyDedupAux]
    by_cases hx : x ∈ acc
    · rw [if_pos hx, pyDedupAux_mem xs acc y]
      constructor
      · rintro (h | h)
        · exact Or.inl h
        · exact Or.inr (List.mem_cons_of_mem _ h)
      · rintro (h | h)
        · exact Or.inl h
        · rcases List.mem_cons.mp h with rfl | h
          · exact Or.inl hx
          · exact Or.inr h
    · rw [if_neg hx, pyDedupAux_mem xs (acc ++ [x]) y]
      simp only [List.mem_append, List.mem_singleton, List.mem_cons]
      tauto

theorem pyDedupAux_nodup : ∀ (l acc : List String), acc.Nodup → (pyDedupAux acc l).Nodup
  | [], _, h => h
  | x :: xs, acc, h => by
    simp only [pyDedupAux]
    by_cases hx : x ∈ acc
    · rw [if_pos hx]; exact pyDedupAux_nodup xs acc h
    · rw [if_neg hx]
      refine pyDedupAux_nodup xs (acc ++ [x]) ?_
      simp [List.nodup_append, h, hx]

theorem pyDedup_mem (l : List String) (y : String) : y ∈ pyDedup l ↔ y ∈ l := by
  rw [pyDedup, pyDedupAux_mem]
  simp

theorem pyDedup_nodup (l : List String) : (pyDedup l).Nodup :=
  pyDedupAux_nodup l [] List.nodup_nil

theorem parse_times_mem (s : String) (t : String) :
    t ∈ parse_times_from_text s ↔ t ∈ timeMatches s := by
  rw [parse_times_from_text, (List.perm_insertionSort strLeP _).mem_iff, pyDedup_mem]

theorem parse_times_sorted (s : String) :
    List.Sorted strLeP (parse_times_from_text s) :=
  List.sorted_insertionSort strLeP _

theorem parse_times_nodup (s : String) : (parse_times_from_text s).Nodup :=
  ((List.perm_insertionSort strLeP _).nodup_iff).mpr (pyDedup_nodup _)

theorem isPrefixOf_append_self : ∀ (m post : List Char), m.isPrefixOf (m ++ post) = true
  | [], post => by cases post <;> rfl
  | c :: m, post => by simp [List.isPrefixOf, isPrefixOf_append_self m post]

theorem containsSub_of_isPrefixOf (hay needle : List Char)
    (h : needle.isPrefixOf hay = true) : containsSub hay needle = true := by
  cases hay with
  | nil => exact h
  | cons c t => simp [containsSub, h]

theorem containsSub_of_append : ∀ (pre m post : List Char),
    containsSub (pre ++ (m ++ post)) m = true
  | [], m, post =>
    containsSub_of_isPrefixOf _ _ (isPrefixOf_append_self m post)
  | c :: pre, m, post => by
    simp [containsSub, containsSub_of_append pre m post]

theorem matchTimeAt_shape (cs m rest : List Char) (h : matchTimeAt cs = some (m, rest)) :
    cs = m ++ rest ∧ specTimeToken (String.mk m) = true := by
  match cs with
  | c1 :: c2 :: c3 :: c4 :: c5 :: r =>
    rw [matchTimeAt] at h
    split_ifs at h with h5 h4
    · obtain ⟨rfl, rfl⟩ := Prod.mk.injEq .. ▸ Option.some.injEq _ _ ▸ h
      exact ⟨rfl, by simpa [specTimeToken] using h5⟩
    · obtain ⟨rfl, rfl⟩ := Prod.mk.injEq .. ▸ Option.some.injEq _ _ ▸ h
      exact ⟨rfl, by simpa [specTimeToken] using h4⟩
  | [c1, c2, c3, c4] =>
    rw [matchTimeAt] at h
    split_ifs at h with h4
    obtain ⟨rfl, rfl⟩ := Prod.mk.injEq .. ▸ Option.some.injEq _ _ ▸ h
    exact ⟨by simp, by simpa [specTimeToken] using h4⟩
  | [] => simp [matchTimeAt] at h
  | [c1] => simp [matchTimeAt] at h
  | [c1, c2] => simp [matchTimeAt] at h
  | [c1, c2, c3] => simp [matchTimeAt] at h

theorem findallAux_token : ∀ (n : Nat) (cs m : List Char), m ∈ findallAux n cs →
    specTimeToken (String.mk m) = true ∧ ∃ pre post, cs = pre ++ (m ++ post)
  | 0, _, _, h => by simp [findallAux] at h
  | n + 1, [], _, h => by simp [findallAux] at h
  | n + 1, c :: cs, m, h => by
    rw [findallAux] at h
    rcases hm : matchTimeAt (c :: cs) with _ | ⟨mtch, rest⟩
    · rw [hm] at h
      obtain ⟨hs, pre, post, heq⟩ := findallAux_token n cs m h
      exact ⟨hs, c :: pre, post, by simp [heq]⟩
    · rw [hm] at h
      obtain ⟨heq, hshape⟩ := matchTimeAt_shape _ _ _ hm
      rcases List.mem_cons.mp h with rfl | h
      · exact ⟨hshape, [], rest, heq⟩
      · obtain ⟨hs, pre, post, hrest⟩ := findallAux_token n rest m h
        exact ⟨hs, mtch ++ pre, post, by simp [heq, hrest]⟩

theorem timeMatches_token (s t : String) (h : t ∈ timeMatches s) :
    specTimeToken t = true ∧ containsSub s.data t.data = true := by
  rw [timeMatches, List.mem_map] at h
  obtain ⟨m, hm, rfl⟩ := h
  obtain ⟨hs, pre, post, heq⟩ := findallAux_token _ _ _ hm
  exact ⟨hs, by rw [heq]; exact containsSub_of_append pre m post⟩

/-- A small concrete schedule store used to exercise the theorems: the
upper-week table has one Monday lesson at nine. -/
def sampleSched : Schedules := [("tepa", [("Monday", "09:00 - Fizika")])]

/-- Concrete settings with the default lead of fifteen minutes. -/
def sampleSettings : Settings :=
  { current_week := "tepa", auto_switch_on_monday := true,
    reminder_minutes_before := 15, admins := [], send_6am := true, send_18pm := true }

end Bot

open Bot

/-- Claim C2 counterexample: extraction is a non-overlapping left-to-right
regex scan, not the set of all time-shaped substrings.  In the text
1:23:45 the token 23:45 is a time-shaped substring occurring in the text,
yet extraction returns only the leftmost match 1:23, so the extraction
result is not the list of all distinct HH:MM substrings of the text. -/
theorem C2_claim_counterexample :
    specTimeToken "23:45" = true
    ∧ containsSub ("1:23:45").data ("23:45").data = true
    ∧ parse_times_from_text "1:23:45" = ["1:23"]
    ∧ "23:45" ∉ parse_times_from_text "1:23:45" := by
  refine ⟨rfl, rfl, rfl, ?_⟩
  decide

/-- Claim C2 (amended): for every schedule text, reminder-time extraction
returns the distinct leftmost non-overlapping matches of the time pattern
(one or two digit hour, colon, two digit minute), deduplicated and sorted
ascending in string order; every returned token is time-shaped and occurs
in the text, and the worked example yields exactly the two times. -/
theorem C2_extraction (s : String) :
    List.Sorted strLeP (parse_times_from_text s)
    ∧ (parse_times_from_text s).Nodup
    ∧ (∀ t, t ∈ parse_times_from_text s ↔ t ∈ timeMatches s)
    ∧ (∀ t, t ∈ parse_times_from_text s →
        specTimeToken t = true ∧ containsSub s.data t.data = true)
    ∧ parse_times_from_text "08:00 - Matematika\n09:00 - Fizika\n08:00 - Matematika"
        = ["08:00", "09:00"] :=
  ⟨parse_times_sorted s, parse_times_nodup s, fun t => parse_times_mem s t,
    fun t ht => timeMatches_token s t ((parse_times_mem s t).mp ht), by rfl⟩

/-- Witness for the amended claim C2 at a concrete input: the token 08:00
returned for the worked example is time-shaped and occurs in the text. -/
theorem C2_extraction_witness :
    specTimeToken "08:00" = true
    ∧ containsSub ("08:00 - Matematika\n09:00 - Fizika\n08:00 - Matematika").data
        ("08:00").data = true :=
  (C2_extraction "08:00 - Matematika\n09:00 - Fizika\n08:00 - Matematika").2.2.2.1
    "08:00" (by decide)

/-- Claim C8: rendering the designated rest day Sunday yields the fixed
no-lessons message, for every variant argument and every stored table. -/
theorem C8_sunday_rest (sched : Schedules) (week : String) :
    pretty_schedule_text sched "Sunday" week = "🌞 *Yakshanba* — Bugun dars yo'q!!!" := rfl

/-- Claim C5: the delay to a daily target is always strictly positive, is at
most one day, and lands exactly on the target time of day, so it is the next
occurrence strictly after now; when now is at or past the instant of today
the target has rolled to tomorrow. -/
theorem C5_seconds_until_target (now h m : Nat) (hh : h < 24) (hm : m < 60) :
    0 < seconds_until_target now h m
    ∧ ((now : Int) + seconds_until_target now h m) % 86400 = (h * 3600 + m * 60 : Int)
    ∧ seconds_until_target now h m ≤ 86400
    ∧ (now ≥ (now / 86400) * 86400 + h * 3600 + m * 60 →
        seconds_until_target now h m
          = ((now / 86400) * 86400 + h * 3600 + m * 60 + 86400 : Int) - (now : Int)) := by
  simp only [seconds_until_target]
  split_ifs with hc
  · refine ⟨by omega, ?_, by omega, fun _ => by push_cast; ring⟩
    push_cast
    omega
  · refine ⟨by omega, ?_, by omega, fun hcon => absurd hcon hc⟩
    push_cast
    omega

/-- Witness for claim C5: with now just after six in the morning, the six
and the eighteen hour targets both produce strictly positive delays. -/
theorem C5_seconds_until_target_witness :
    0 < seconds_until_target 21601 6 0 ∧ 0 < seconds_until_target 21601 18 0 :=
  ⟨(C5_seconds_until_target 21601 6 0 (by decide) (by decide)).1,
    (C5_seconds_until_target 21601 18 0 (by decide) (by decide)).1⟩

/-- Characterization of the body of the per-time arming loop: a timer comes
out exactly when the token parses, the datetime constructor accepts the
hour and minute, and the reminder instant is strictly after now. -/
theorem armOne_eq_some (dayStart L now : Nat) (t : String) (p : String × Int) :
    armOne dayStart L now t = some p ↔
      ∃ hh mm, timeToHM t = some (hh, mm) ∧ hh ≤ 23 ∧ mm ≤ 59
        ∧ p = (t, (dayStart : Int) + hh * 3600 + mm * 60 - (L : Int) * 60)
        ∧ (now : Int) < (dayStart : Int) + hh * 3600 + mm * 60 - (L : Int) * 60 := by
  rcases h : timeToHM t with _ | ⟨hh, mm⟩
  · simp [armOne, h]
  · simp only [armOne, h]
    constructor
    · intro he
      split_ifs at he with h1 h2
      · refine ⟨hh, mm, rfl, h1.1, h1.2, (Option.some.injEq _ _).mp he |>.symm, by omega⟩
    · rintro ⟨hh2, mm2, heq, hb1, hb2, rfl, hlt⟩
      obtain ⟨rfl, rfl⟩ := Prod.mk.injEq .. ▸ (Option.some.injEq _ _).mp heq
      rw [if_pos ⟨hb1, hb2⟩, if_neg (by omega)]

/-- Claim C1: a timer is armed for lesson time t if and only if t was
extracted from the text of today under the current variant, it denotes a
valid wall-clock time, and its lesson instant minus the lead is strictly in
the future; the fire instant is exactly that difference.  In the worked
example (lead fifteen, lesson at nine), waking at ten past eight arms a
timer firing at quarter to nine, and waking at ten to eight arms nothing. -/
theorem C1_reminder_arming (sched : Schedules) (st : Settings) (now : Nat)
    (t : String) (f : Int) :
    ((t, f) ∈ schedule_reminders_for_today sched st now ↔
      weekdayName now ≠ "Sunday"
      ∧ t ∈ parse_times_from_text (schedText sched st.current_week (weekdayName now))
      ∧ ∃ hh mm, timeToHM t = some (hh, mm) ∧ hh ≤ 23 ∧ mm ≤ 59
          ∧ f = (((now / 86400) * 86400 : Nat) : Int) + hh * 3600 + mm * 60
              - (st.reminder_minutes_before : Int) * 60
          ∧ (now : Int) < f)
    ∧ schedule_reminders_for_today sampleSched sampleSettings 29400 = [("09:00", 31500)]
    ∧ schedule_reminders_for_today sampleSched sampleSettings 31800 = [] := by
  refine ⟨?_, by rfl, by rfl⟩
  by_cases hs : weekdayName now = "Sunday"
  · simp [schedule_reminders_for_today, hs]
  · have hs2 : (weekdayName now == "Sunday") = false := by
      simpa using hs
    simp only [schedule_reminders_for_today, hs2, Bool.false_eq_true, if_false,
      List.mem_filterMap, armOne_eq_some, ne_eq, hs, not_false_eq_true, true_and]
    constructor
    · rintro ⟨a, ha, hh, mm, hp, hb1, hb2, heq, hlt⟩
      obtain ⟨rfl, rfl⟩ := Prod.mk.injEq .. ▸ heq
      exact ⟨ha, hh, mm, hp, hb1, hb2, rfl, hlt⟩
    · rintro ⟨ha, hh, mm, hp, hb1, hb2, rfl, hlt⟩
      exact ⟨t, ha, hh, mm, hp, hb1, hb2, rfl, hlt⟩

/-- Witness for claim C1: at ten past eight on a Monday, the armed timer for
the nine-hour lesson exists and fires at quarter to nine (seconds 31500 of
the day), as obtained from the characterization at a concrete input. -/
theorem C1_reminder_arming_witness :
    ("09:00", (31500 : Int)) ∈ schedule_reminders_for_today sampleSched sampleSettings 29400 :=
  (C1_reminder_arming sampleSched sampleSettings 29400 "09:00" 31500).1.mpr
    ⟨by decide, by decide, 9, 0, by decide, by decide, by decide, by decide, by decide⟩

/-- Claim C4: the evening broadcast is a read-only preview of the settings:
the settings it leaves behind are exactly the input settings (in particular
current_week is unchanged), and when tomorrow is the rotation day Monday
with auto switch on, the preview is rendered with the flipped variant. -/
theorem C4_evening_preview_frame (sched : Schedules) (st : Settings)
    (users groups : List Int) (ok : Int → Bool) (now : Nat) :
    (send_daily_evening sched st users groups ok now).settings = st
    ∧ (send_daily_evening sched st users groups ok now).settings.current_week
        = st.current_week
    ∧ (st.auto_switch_on_monday = true → (now / 86400 + 1) % 7 = 0 →
        (send_daily_evening sched st users groups ok now).weekUsed
            = toggleWeek st.current_week
        ∧ (send_daily_evening sched st users groups ok now).text
            = pretty_schedule_text sched "Monday" (toggleWeek st.current_week)) := by
  refine ⟨rfl, rfl, fun ha hm => ?_⟩
  have h1 : dayNameOfIndex (now / 86400 + 1) = "Monday" := by
    simp [dayNameOfIndex, hm]
  constructor
  · simp [send_daily_evening, ha, hm]
  · simp [send_daily_evening, ha, hm, h1]

/-- Witness for claim C4: on a concrete Sunday evening with the upper week
current, the preview uses the lower variant and the persisted variant stays
upper. -/
theorem C4_evening_preview_frame_witness :
    (send_daily_evening sampleSched sampleSettings [1] [] (fun _ => true) 583200).settings
        = sampleSettings
    ∧ (send_daily_evening sampleSched sampleSettings [1] [] (fun _ => true) 583200).weekUsed
        = toggleWeek "tepa" :=
  ⟨(C4_evening_preview_frame sampleSched sampleSettings [1] [] (fun _ => true) 583200).1,
    ((C4_evening_preview_frame sampleSched sampleSettings [1] [] (fun _ => true) 583200).2.2
      rfl (by decide)).1⟩

/-- Claim C3: on a morning wake (the six hour target is the earlier one and
morning broadcasts are on) whose wake day is the rotation day Monday with
auto switch on, the persisted variant is flipped and the morning broadcast
of that very wake is rendered with the flipped variant; and in a concrete
run across a whole Monday starting from the upper week, the flip happens
exactly once on that Monday (not on the later wakes of the same day), the
persisted variant becoming the lower week. -/
theorem C3_monday_rotation :
    (∀ (st : Settings) (now : Nat),
      st.send_6am = true → st.auto_switch_on_monday = true →
      seconds_until_target now 6 0 ≤ seconds_until_target now 18 0 →
      ((now + (seconds_until_target now 6 0).toNat) / 86400) % 7 = 0 →
      (loopIter st now).1.current_week = toggleWeek st.current_week
      ∧ Event.flip (toggleWeek st.current_week)
          (now + (seconds_until_target now 6 0).toNat) ∈ (loopIter st now).2.2
      ∧ Event.morning (toggleWeek st.current_week)
          (now + (seconds_until_target now 6 0).toNat) ∈ (loopIter st now).2.2)
    ∧ (runLoop sampleSettings 18000 3).1.current_week = "pastgi"
    ∧ flipCountOnDay (runLoop sampleSettings 18000 3).2.2 0 = 1
    ∧ flipCountOnDay (runLoop sampleSettings 18000 3).2.2 1 = 0
    ∧ (runLoop sampleSettings 18000 3).2.2
        = [Event.flip "pastgi" 21600, Event.morning "pastgi" 21600,
            Event.evening "pastgi" 64800, Event.morning "pastgi" 108000] := by
  refine ⟨?_, by rfl, by rfl, by rfl, by rfl⟩
  intro st now h6 ha hle hwd
  simp [loopIter, hle, h6, ha, hwd]

/-- Witness for claim C3: waking from five in the morning of the epoch
Monday, the loop iteration flips the persisted variant to the lower week. -/
theorem C3_monday_rotation_witness :
    (loopIter sampleSettings 18000).1.current_week = toggleWeek "tepa" :=
  (C3_monday_rotation.1 sampleSettings 18000 rfl rfl (by decide) (by decide)).1

/-- The broadcast loop in closed form: it calls the safe sender once per
recipient in order and increments the counter once per recipient, because
the safe sender never lets a transport error escape. -/
theorem broadcastStep_foldl (ok : Int → Bool) :
    ∀ (l : List Int) (acc : List SendOutcome) (n : Nat),
      l.foldl (broadcastStep ok) (acc, n)
        = (acc ++ l.map (send_message_safe ok), n + l.length)
  | [], acc, n => by simp
  | x :: xs, acc, n => by
    rw [List.foldl_cons]
    show List.foldl (broadcastStep ok) (acc ++ [send_message_safe ok x], n + 1) xs = _
    rw [broadcastStep_foldl ok xs (acc ++ [send_message_safe ok x]) (n + 1)]
    simp
    omega

/-- Claim C6 counterexample: broadcasting to the recipients 1, 2, 3 where
delivery to 2 always fails does complete the batch, delivers to 1 and 3 and
removes nobody, but the operator report counts three sends, not two: the
safe sender swallows the failure, so the per-recipient counter of the
caller increments for the failed recipient as well, refuting the claim that
the reported succeeded count is the size of the set minus one. -/
theorem C6_claim_counterexample :
    (send_daily_morning sampleSched sampleSettings [1, 2, 3] []
        (fun i => !(i == 2)) 29400).outcomes_u
      = [SendOutcome.delivered 1, SendOutcome.logged 2, SendOutcome.delivered 3]
    ∧ (send_daily_morning sampleSched sampleSettings [1, 2, 3] []
        (fun i => !(i == 2)) 29400).users_after = [1, 2, 3]
    ∧ (send_daily_morning sampleSched sampleSettings [1, 2, 3] []
        (fun i => !(i == 2)) 29400).report_users = 3
    ∧ (send_daily_morning sampleSched sampleSettings [1, 2, 3] []
        (fun i => !(i == 2)) 29400).report_sent_u = 3
    ∧ (send_daily_morning sampleSched sampleSettings [1, 2, 3] []
        (fun i => !(i == 2)) 29400).report_sent_u ≠ 3 - 1 := by
  refine ⟨rfl, rfl, rfl, rfl, by decide⟩

/-- Claim C6 (amended): the morning broadcast attempts delivery to every
recipient in order, never aborts the batch on a failure and never removes a
recipient from the registries, and the operator report states attempted
equal to the size of the set and a sent counter also equal to the size of
the set: per-recipient failures are swallowed inside the safe send helper,
so they are not subtracted from the counter. -/
theorem C6_broadcast_isolation (sched : Schedules) (st : Settings)
    (users groups : List Int) (ok : Int → Bool) (now : Nat) :
    (send_daily_morning sched st users groups ok now).outcomes_u
        = users.map (send_message_safe ok)
    ∧ (send_daily_morning sched st users groups ok now).users_after = users
    ∧ (send_daily_morning sched st users groups ok now).groups_after = groups
    ∧ (send_daily_morning sched st users groups ok now).report_users = users.length
    ∧ (send_daily_morning sched st users groups ok now).report_sent_u = users.length
    ∧ (send_daily_morning sched st users groups ok now).report_sent_g = groups.length
    ∧ (∀ uid, uid ∈ users → ok uid = true →
        SendOutcome.delivered uid
          ∈ (send_daily_morning sched st users groups ok now).outcomes_u) := by
  have hu := broadcastStep_foldl ok users [] 0
  have hg := broadcastStep_foldl ok groups [] 0
  refine ⟨?_, rfl, rfl, rfl, ?_, ?_, ?_⟩
  · simp [send_daily_morning, hu]
  · simp [send_daily_morning, hu]
  · simp [send_daily_morning, hg]
  · intro uid hmem hok
    have : (send_daily_morning sched st users groups ok now).outcomes_u
        = users.map (send_message_safe ok) := by simp [send_daily_morning, hu]
    rw [this, List.mem_map]
    exact ⟨uid, hmem, by simp [send_message_safe, hok]⟩

/-- Witness for the amended claim C6: in the concrete failing-recipient run,
recipient 3 (after the failing recipient 2) is still delivered to. -/
theorem C6_broadcast_isolation_witness :
    SendOutcome.delivered 3
      ∈ (send_daily_morning sampleSched sampleSettings [1, 2, 3] []
          (fun i => !(i == 2)) 29400).outcomes_u :=
  (C6_broadcast_isolation sampleSched sampleSettings [1, 2, 3] []
    (fun i => !(i == 2)) 29400).2.2.2.2.2.2 3 (by decide) (by decide)

/-- Schedule table whose Monday line carries a dash before the time,
exhibiting where the subject split of the source diverges from the claim
wording. -/
def c7Sched : Schedules := [("tepa", [("Monday", "Fan-1 09:00 - Fizika")])]

/-- Claim C7 counterexample: the source splits the matching line at its
first dash anywhere in the line, not at the first separator after the time.
For the stored Monday line with a dash before the time, the reminder
message carries the subject text from the first dash of the line onward,
not the subject Fizika that a split at the separator after the time would
give. -/
theorem C7_claim_counterexample :
    reminder_send_for_time c7Sched sampleSettings [1] 29400 "09:00"
      = [(1, "🔔 *Eslatma!* `09:00` da *1 09:00 - Fizika* boshlanadi. Tayyorlaning!")]
    ∧ subjectFor "Fan-1 09:00 - Fizika" "09:00" = some "1 09:00 - Fizika"
    ∧ subjectFor "Fan-1 09:00 - Fizika" "09:00" ≠ some "Fizika" := by
  refine ⟨rfl, rfl, by decide⟩

/-- Claim C7 (amended): a firing reminder re-reads the schedule text of the
store passed at fire time, takes the first line containing the time string
and splits that line at its first dash anywhere in the line (for standard
time dash subject lines this is the separator after the time) to obtain the
subject; the specific message is sent exactly when that subject is nonempty
(the source tests it with Python truthiness); when no line contains the
time, or the matching line has no dash, or the stripped subject is empty,
the generic lesson-is-starting message is sent; the message goes to every
individual subscriber and the group registry is never consulted. -/
theorem C7_reminder_firing (sched : Schedules) (st : Settings) (users : List Int)
    (now : Nat) (t : String) :
    (reminder_send_for_time sched st users now t).map Prod.fst = users
    ∧ (∀ p, p ∈ reminder_send_for_time sched st users now t →
        p.2 = reminderMsg (schedText sched st.current_week (weekdayName now)) t)
    ∧ ((∀ line, line ∈ splitlines (schedText sched st.current_week (weekdayName now)) →
          containsSub line.data t.data = false) →
        ∀ p, p ∈ reminder_send_for_time sched st users now t →
          p.2 = "🔔 *Eslatma!* `" ++ t ++ "` da dars boshlanadi. Tayyorlaning!")
    ∧ (∀ s, subjectFor (schedText sched st.current_week (weekdayName now)) t = some s →
        s ≠ "" →
        ∀ p, p ∈ reminder_send_for_time sched st users now t →
          p.2 = "🔔 *Eslatma!* `" ++ t ++ "` da *" ++ s ++ "* boshlanadi. Tayyorlaning!")
    ∧ (subjectFor (schedText sched st.current_week (weekdayName now)) t = some "" →
        ∀ p, p ∈ reminder_send_for_time sched st users now t →
          p.2 = "🔔 *Eslatma!* `" ++ t ++ "` da dars boshlanadi. Tayyorlaning!") := by
  refine ⟨?_, ?_, ?_, ?_, ?_⟩
  · simp [reminder_send_for_time, Function.comp_def]
  · intro p hp
    rw [reminder_send_for_time, List.mem_map] at hp
    obtain ⟨uid, _, rfl⟩ := hp
    rfl
  · intro hnone p hp
    have hline : findSubjectLine (schedText sched st.current_week (weekdayName now)) t
        = none := by
      rw [findSubjectLine, List.find?_eq_none]
      intro line hl
      simp [hnone line hl]
    rw [reminder_send_for_time, List.mem_map] at hp
    obtain ⟨uid, _, rfl⟩ := hp
    show reminderMsg _ t = _
    rw [reminderMsg, subjectFor, hline]
  · intro s hs hne p hp
    rw [reminder_send_for_time, List.mem_map] at hp
    obtain ⟨uid, _, rfl⟩ := hp
    show reminderMsg _ t = _
    rw [reminderMsg, hs]
    simp [hne]
  · intro hs p hp
    rw [reminder_send_for_time, List.mem_map] at hp
    obtain ⟨uid, _, rfl⟩ := hp
    show reminderMsg _ t = _
    rw [reminderMsg, hs]
    rfl

/-- Witness for the amended claim C7: in the concrete store whose Monday
text is a standard time dash subject line, the fired reminder message names
the subject Fizika and goes to the lone individual subscriber; and in a
store whose Monday line is a bare time followed by a dash (empty stripped
subject, falsy in the source), the generic message is sent. -/
theorem C7_reminder_firing_witness :
    (reminder_send_for_time sampleSched sampleSettings [1] 29400 "09:00").map Prod.fst
      = [1]
    ∧ ((1 : Int), "🔔 *Eslatma!* `09:00` da *Fizika* boshlanadi. Tayyorlaning!").2
        = "🔔 *Eslatma!* `" ++ "09:00" ++ "` da *" ++ "Fizika"
            ++ "* boshlanadi. Tayyorlaning!"
    ∧ ((1 : Int), "🔔 *Eslatma!* `09:00` da dars boshlanadi. Tayyorlaning!").2
        = "🔔 *Eslatma!* `" ++ "09:00" ++ "` da dars boshlanadi. Tayyorlaning!" :=
  ⟨(C7_reminder_firing sampleSched sampleSettings [1] 29400 "09:00").1,
    (C7_reminder_firing sampleSched sampleSettings [1] 29400 "09:00").2.2.2.1 "Fizika"
      (by rfl) (by decide)
      ((1 : Int), "🔔 *Eslatma!* `09:00` da *Fizika* boshlanadi. Tayyorlaning!")
      (by decide),
    (C7_reminder_firing [("tepa", [("Monday", "09:00 -")])] sampleSettings [1] 29400
        "09:00").2.2.2.2 (by rfl)
      ((1 : Int), "🔔 *Eslatma!* `09:00` da dars boshlanadi. Tayyorlaning!")
      (by decide)⟩

/-- Claim C9: a /start from a private chat identity not yet registered
appends exactly that identity to the users registry, leaves the groups
registry alone and sends exactly two messages (the welcome and the
schedule of today); a second /start from the same identity leaves the
registry unchanged and again sends exactly two messages. -/
theorem C9_start_idempotent (sched : Schedules) (st : Settings)
    (users groups : List Int) (now : Nat) (cid : Int) (h : cid ∉ users) :
    (handle_start "private" cid users groups sched st now).users = users ++ [cid]
    ∧ (handle_start "private" cid users groups sched st now).users.length
        = users.length + 1
    ∧ (handle_start "private" cid users groups sched st now).sends.length = 2
    ∧ (handle_start "private" cid users groups sched st now).groups = groups
    ∧ (handle_start "private" cid (users ++ [cid]) groups sched st now).users
        = users ++ [cid]
    ∧ (handle_start "private" cid (users ++ [cid]) groups sched st now).sends.length
        = 2 := by
  have hin : cid ∈ users ++ [cid] := by simp
  refine ⟨?_, ?_, ?_, ?_, ?_, ?_⟩ <;>
    simp [handle_start, h, hin]

/-- Witness for claim C9: starting from the empty registry, a /start from
the private chat 7 yields the registry holding exactly 7. -/
theorem C9_start_idempotent_witness :
    (handle_start "private" 7 [] [] sampleSched sampleSettings 29400).users = [] ++ [7] :=
  (C9_start_idempotent sampleSched sampleSettings [] [] 29400 7 (by decide)).1

/-- Claim C10: when today is Sunday the reminder arming operation returns
the empty timer list, whatever the schedule table and settings hold. -/
theorem C10_sunday_skips_reminders (sched : Schedules) (st : Settings) (now : Nat)
    (h : weekdayName now = "Sunday") :
    schedule_reminders_for_today sched st now = [] := by
  simp [schedule_reminders_for_today, h]

/-- Witness for claim C10: on a concrete Sunday instant, with a table that
even stores a Sunday entry full of time tokens, no timer is armed. -/
theorem C10_sunday_skips_reminders_witness :
    weekdayName 518400 = "Sunday"
    ∧ schedule_reminders_for_today [("tepa", [("Sunday", "08:00 - Matematika")])]
        sampleSettings 518400 = [] :=
  ⟨rfl, C10_sunday_skips_reminders _ sampleSettings 518400 rfl⟩
